import Mathlib

/-!
Shallow embedding of Botan's `src/x509_key.cpp` (X.509 public key codec,
key identifier, key duplication and key-usage constraint resolution),
with proofs of the specified properties.

Bytes are modelled as `Nat` values (a genuine byte is `< 256`; where byte
arithmetic matters the code applies `% 2 ^ 8` exactly as the C++ byte type
does).  Exceptions are modelled with `Except Err`.  External collaborators
(BER/DER engine, PEM transform, hash primitive, OID registry, per-algorithm
adapters) are out of scope of the source file and are modelled from the
spec, either as parameters bundled in `Externals` or as concrete
spec-modelled functions.
-/

namespace Botan

/-- Error taxonomy of the core: `Decoding_Error`, `Encoding_Error` and
`Internal_Error` from the C++ exception hierarchy. -/
inductive ErrKind
  | Decoding
  | Encoding
  | Internal
deriving DecidableEq

/-- An exception value: its kind and its message. -/
structure Err where
  kind : ErrKind
  msg : String
deriving DecidableEq

/-- AlgorithmIdentifier: an OID (kept opaque, as its DER content octets)
plus raw pre-encoded parameter bytes. -/
structure AlgorithmIdentifier where
  oid : List Nat
  parameters : List Nat
deriving DecidableEq

/-- The X.509 encode capability adapter of a key: it supplies the
algorithm identifier and the raw key bits (`alg_id()` and `key_bits()`
of the C++ `X509_Encoder`). -/
structure X509_Encoder where
  alg_id : AlgorithmIdentifier
  key_bits : List Nat
deriving DecidableEq

/-- A public key object.  `algo_name` is the byte form of the name string;
`x509_encoder` and `x509_decoder` model the optional capability adapters
(a C++ virtual returning null when the variant lacks the capability; the
decode adapter consumes the algorithm identifier and the key bits and
yields the fully set-up key, or rejects).  The four Booleans model the
`dynamic_cast` checks against `PK_Encrypting_Key`, `PK_Key_Agreement_Key`,
`PK_Verifying_wo_MR_Key` and `PK_Verifying_with_MR_Key`. -/
structure X509_PublicKey where
  algo_name : List Nat
  x509_encoder : Option X509_Encoder
  x509_decoder : Option (AlgorithmIdentifier → List Nat → Except Err X509_PublicKey)
  isEncrypting : Bool
  isKeyAgreement : Bool
  isVerifyingWoMR : Bool
  isVerifyingWithMR : Bool

/-- Modelled from the spec: the `Key_Constraints` bitmask (its defining
header is not part of the core source file).  The flag set mirrors the
X.509 key-usage bit assignments used by Botan. -/
def DIGITAL_SIGNATURE : Nat := 32768

/-- Modelled from the spec: the NON_REPUDIATION key-usage flag. -/
def NON_REPUDIATION : Nat := 16384

/-- Modelled from the spec: the KEY_ENCIPHERMENT key-usage flag. -/
def KEY_ENCIPHERMENT : Nat := 8192

/-- Modelled from the spec: the DATA_ENCIPHERMENT key-usage flag. -/
def DATA_ENCIPHERMENT : Nat := 4096

/-- Modelled from the spec: the KEY_AGREEMENT key-usage flag. -/
def KEY_AGREEMENT : Nat := 2048

/-- Modelled from the spec: the KEY_CERT_SIGN key-usage flag. -/
def KEY_CERT_SIGN : Nat := 1024

/-- Modelled from the spec: the CRL_SIGN key-usage flag. -/
def CRL_SIGN : Nat := 512

/-- Modelled from the spec: minimal big-endian base-256 digits of `n`,
used by the DER engine for long-form lengths. -/
def natToBytes (n : Nat) : List Nat :=
  if h : n = 0 then []
  else natToBytes (n / 256) ++ [n % 256]
decreasing_by exact Nat.div_lt_self (Nat.pos_of_ne_zero h) (by norm_num)

/-- Modelled from the spec: big-endian value of a byte list. -/
def bytesToNat (l : List Nat) : Nat :=
  l.foldl (fun acc b => 256 * acc + b) 0

/-- Modelled from the spec: DER definite-length octets (short form below
128, long form above). -/
def lenBytes (n : Nat) : List Nat :=
  if n < 128 then [n]
  else (128 + (natToBytes n).length) :: natToBytes n

/-- Modelled from the spec: a DER tag-length-value frame. -/
def tlv (tag : Nat) (contents : List Nat) : List Nat :=
  tag :: (lenBytes contents.length ++ contents)

/-- Modelled from the spec: read a DER definite length, returning it and
the remaining bytes. -/
def readLen : List Nat → Option (Nat × List Nat)
  | [] => none
  | b :: rest =>
    if b < 128 then some (b, rest)
    else
      let k := b - 128
      if k = 0 then none
      else if rest.length < k then none
      else some (bytesToNat (rest.take k), rest.drop k)

/-- Modelled from the spec: read one DER TLV frame, returning the tag, the
contents and the bytes following the frame. -/
def readTLV (input : List Nat) : Option (Nat × List Nat × List Nat) :=
  match input with
  | [] => none
  | t :: rest =>
    match readLen rest with
    | none => none
    | some (len, rest2) =>
      if rest2.length < len then none
      else some (t, rest2.take len, rest2.drop len)

/-- Modelled from the spec: DER encoding of an AlgorithmIdentifier —
`SEQUENCE { OID, parameters }`, the parameter bytes appended raw. -/
def encAlgId (a : AlgorithmIdentifier) : List Nat :=
  tlv 0x30 (tlv 0x06 a.oid ++ a.parameters)

/-- DER form of a SubjectPublicKeyInfo produced by the encode side:
`SEQUENCE { algorithm_identifier, BIT STRING(key_bits) }` (the BIT STRING
carries a leading zero unused-bits octet). -/
def derEncodeSPKI (alg : AlgorithmIdentifier) (key_bits : List Nat) : List Nat :=
  tlv 0x30 (encAlgId alg ++ tlv 0x03 (0 :: key_bits))

/-- Modelled from the spec: the BER engine pass used by `load_key` —
`start_cons(SEQUENCE) .decode(alg_id) .decode(key_bits, BIT_STRING)
.verify_end() .end_cons()`.  `verify_end` rejects trailing bytes after the
BIT STRING inside the SEQUENCE.  Every failure is a decoding error. -/
def berDecodeSPKI (input : List Nat) : Except Err (AlgorithmIdentifier × List Nat) :=
  match readTLV input with
  | none => .error ⟨.Decoding, "BER: Length field is to large"⟩
  | some (t, body, _) =>
    if t ≠ 0x30 then .error ⟨.Decoding, "BER: Sequence tag mismatch"⟩
    else
      match readTLV body with
      | none => .error ⟨.Decoding, "BER: Value truncated"⟩
      | some (ta, algBody, rest1) =>
        if ta ≠ 0x30 then .error ⟨.Decoding, "BER: AlgorithmIdentifier tag mismatch"⟩
        else
          match readTLV algBody with
          | none => .error ⟨.Decoding, "BER: OID truncated"⟩
          | some (toid, oid, params) =>
            if toid ≠ 0x06 then .error ⟨.Decoding, "BER: OID tag mismatch"⟩
            else
              match readTLV rest1 with
              | none => .error ⟨.Decoding, "BER: BIT STRING truncated"⟩
              | some (tb, bs, rest2) =>
                if tb ≠ 0x03 then .error ⟨.Decoding, "BER: BIT STRING tag mismatch"⟩
                else
                  match bs with
                  | [] => .error ⟨.Decoding, "BER: BIT STRING is empty"⟩
                  | ub :: bits =>
                    if ub ≥ 8 then .error ⟨.Decoding, "BER: BIT STRING has invalid unused bits"⟩
                    else if rest2 ≠ [] then .error ⟨.Decoding, "BER: Packet is larger than expected"⟩
                    else .ok (⟨oid, params⟩, bits)

/-- Modelled from the spec: the external collaborators consumed by this
core — the BER/PEM sniffing heuristics (`ASN1::maybe_BER`,
`PEM_Code::matches`), the PEM transform (`PEM_Code::decode`,
`PEM_Code::encode`), the OID registry (`OIDS::lookup`, returning the empty
string when absent, and `OID::as_string`) and the algorithm constructor
registry (`get_public_key`, returning `none` when absent). -/
structure Externals where
  maybeBER : List Nat → Bool
  pemMatches : List Nat → Bool
  pemDecode : List Nat → Except Err (String × List Nat)
  pemEncode : List Nat → String → List Nat
  oidLookup : List Nat → String
  oidAsString : List Nat → String
  getPublicKey : String → Option X509_PublicKey

/-- Modelled from the spec: `PEM_Code::decode_check_label` — decode the
PEM framing and require the expected label. -/
def pemDecodeCheckLabel (ext : Externals) (source : List Nat) (label : String) :
    Except Err (List Nat) :=
  match ext.pemDecode source with
  | .error e => .error e
  | .ok (got, content) =>
    if got = label then .ok content
    else .error ⟨.Decoding, "PEM: Label mismatch, wanted " ++ label ++ ", got " ++ got⟩

/-- The byte stream fed to the hash by `key_id`: the algorithm name, the
encoded algorithm parameters and the raw key bits, written sequentially
into one hashing context (for a sequential digest this is concatenation). -/
def key_id_input (key : X509_PublicKey) (enc : X509_Encoder) : List Nat :=
  key.algo_name ++ enc.alg_id.parameters ++ enc.key_bits

/-- Embedding of `X509_PublicKey::key_id` (x509_key.cpp lines 21-43).
`hash` is the external SHA-1 primitive; the `Hash_Filter("SHA-1", 8)`
truncation keeps the first 8 digest bytes.  The final loop is
`id = (id << 8) | output[j]` on a 64-bit accumulator over byte values. -/
def key_id (hash : List Nat → List Nat) (key : X509_PublicKey) : Except Err Nat :=
  match key.x509_encoder with
  | none => .error ⟨.Internal, "X509_PublicKey:key_id: No encoder found"⟩
  | some enc =>
    if ((hash (key_id_input key enc)).take 8).length ≠ 8 then
      .error ⟨.Internal, "X509_PublicKey::key_id: Incorrect output size"⟩
    else
      .ok (((hash (key_id_input key enc)).take 8).foldl
            (fun id b => ((id <<< 8) % 2 ^ 64) ||| (b % 2 ^ 8)) 0)

/-- The two target encodings of `X509::encode`. -/
inductive X509_Encoding
  | RAW_BER
  | PEM
deriving DecidableEq

/-- Embedding of `X509::encode` (x509_key.cpp lines 50-68): build the DER
SubjectPublicKeyInfo from the encode adapter; wrap in PEM framing under
the label "PUBLIC KEY" when requested, otherwise emit the DER bytes. -/
def encode (ext : Externals) (key : X509_PublicKey) (encoding : X509_Encoding) :
    Except Err (List Nat) :=
  match key.x509_encoder with
  | none => .error ⟨.Encoding, "X509::encode: Key does not support encoding"⟩
  | some enc =>
    match encoding with
    | .PEM => .ok (ext.pemEncode (derEncodeSPKI enc.alg_id enc.key_bits) "PUBLIC KEY")
    | .RAW_BER => .ok (derEncodeSPKI enc.alg_id enc.key_bits)

/-- The source-format dispatch of `load_key` (x509_key.cpp lines 91-112):
raw BER exactly when the BER heuristic accepts and the PEM heuristic does
not; otherwise PEM-decode under the label "PUBLIC KEY" and parse the
resulting bytes. -/
def decode_spki_source (ext : Externals) (source : List Nat) :
    Except Err (AlgorithmIdentifier × List Nat) :=
  if ext.maybeBER source && !(ext.pemMatches source) then
    berDecodeSPKI source
  else
    match pemDecodeCheckLabel ext source "PUBLIC KEY" with
    | .error e => .error e
    | .ok ber => berDecodeSPKI ber

/-- The body of the `try` block of `X509::load_key` (x509_key.cpp lines
87-135): parse, reject empty key bits, resolve the OID, construct the key,
require its decode adapter and let the adapter set the key up. -/
def load_key_inner (ext : Externals) (source : List Nat) : Except Err X509_PublicKey :=
  match decode_spki_source ext source with
  | .error e => .error e
  | .ok (alg_id, key_bits) =>
    if key_bits.isEmpty then
      .error ⟨.Decoding, "X.509 public key decoding failed"⟩
    else
      if ext.oidLookup alg_id.oid = "" then
        .error ⟨.Decoding, "Unknown algorithm OID: " ++ ext.oidAsString alg_id.oid⟩
      else
        match ext.getPublicKey (ext.oidLookup alg_id.oid) with
        | none =>
          .error ⟨.Decoding, "Unknown PK algorithm/OID: " ++ ext.oidLookup alg_id.oid ++
                  ", " ++ ext.oidAsString alg_id.oid⟩
        | some key_obj =>
          match key_obj.x509_decoder with
          | none => .error ⟨.Decoding, "Key does not support X.509 decoding"⟩
          | some d => d alg_id key_bits

/-- Embedding of `X509::load_key` (x509_key.cpp lines 85-140): the `try`
body, with `catch(Decoding_Error)` re-signalling any decoding failure as
the one generic decoding failure with the fixed message. -/
def load_key (ext : Externals) (source : List Nat) : Except Err X509_PublicKey :=
  match load_key_inner ext source with
  | .ok key => .ok key
  | .error e =>
    if e.kind = ErrKind.Decoding then
      .error ⟨.Decoding, "X.509 public key decoding failed"⟩
    else .error e

/-- Embedding of `X509::copy_key` (x509_key.cpp lines 163-171): encode in
raw (unframed) DER mode, then load the bytes as fresh input. -/
def copy_key (ext : Externals) (key : X509_PublicKey) : Except Err X509_PublicKey :=
  match encode ext key .RAW_BER with
  | .error e => .error e
  | .ok bits => load_key ext bits

/-- Embedding of `X509::find_constraints` (x509_key.cpp lines 176-196):
build the capability mask, then intersect with `limits` when `limits` is
non-zero. -/
def find_constraints (key : X509_PublicKey) (limits : Nat) : Nat :=
  let c0 : Nat := 0
  let c1 := if key.isEncrypting then c0 ||| KEY_ENCIPHERMENT else c0
  let c2 := if key.isKeyAgreement then c1 ||| KEY_AGREEMENT else c1
  let c3 :=
    if key.isVerifyingWoMR || key.isVerifyingWithMR then
      c2 ||| (DIGITAL_SIGNATURE ||| NON_REPUDIATION)
    else c2
  if limits ≠ 0 then c3 &&& limits else c3

/-- Big-endian reading of a byte list: the specified interpretation of
the eight digest bytes. -/
def beVal (l : List Nat) : Nat :=
  l.foldl (fun acc b => 256 * acc + b) 0

/-- A concrete AlgorithmIdentifier used to exercise the theorems. -/
def sampleAlgId : AlgorithmIdentifier := ⟨[42], [5, 0]⟩

/-- Concrete key bits used to exercise the theorems. -/
def sampleBits : List Nat := [1, 2, 3]

/-- A concrete encode adapter. -/
def sampleEncoder : X509_Encoder := ⟨sampleAlgId, sampleBits⟩

/-- A concrete decode adapter with round-trip fidelity: the produced key
echoes the algorithm identifier and key bits it was given. -/
def sampleAdapter : AlgorithmIdentifier → List Nat → Except Err X509_PublicKey :=
  fun a b => .ok ⟨[82, 83, 65], some ⟨a, b⟩, none, true, false, true, false⟩

/-- A concrete key supporting both X.509 capabilities, Encrypting and
Verifying-without-recovery. -/
def sampleFresh : X509_PublicKey :=
  ⟨[82, 83, 65], some sampleEncoder, some sampleAdapter, true, false, true, false⟩

/-- A concrete key with no adapters and no recognized capability. -/
def sampleOpaque : X509_PublicKey :=
  ⟨[88], none, none, false, false, false, false⟩

/-- A concrete instantiation of the external collaborators: the BER
heuristic accepts a leading SEQUENCE octet, nothing looks like PEM, PEM
decoding fails, and the registry knows one algorithm. -/
def sampleExt : Externals where
  maybeBER := fun bs => bs.head? == some 0x30
  pemMatches := fun _ => false
  pemDecode := fun _ => .error ⟨.Decoding, "PEM: No PEM header found"⟩
  pemEncode := fun der _ => der
  oidLookup := fun oid => if oid = [42] then "RSA" else ""
  oidAsString := fun _ => "1.2"
  getPublicKey := fun name => if name = "RSA" then some sampleFresh else none

/-- A variant of the sample world whose PEM heuristic accepts everything
and whose PEM decoder yields a wrongly-labelled payload. -/
def samplePemExt : Externals :=
  { sampleExt with
    pemMatches := fun _ => true
    pemDecode := fun _ => .ok ("CERTIFICATE", [48]) }

theorem bytesToNat_snoc (xs : List Nat) (b : Nat) :
    bytesToNat (xs ++ [b]) = 256 * bytesToNat xs + b := by
  simp [bytesToNat, List.foldl_append]

theorem bytesToNat_natToBytes (n : Nat) : bytesToNat (natToBytes n) = n := by
  induction n using Nat.strong_induction_on with
  | _ n ih =>
    rw [natToBytes]
    split
    · rename_i h; simp [bytesToNat, h]
    · rename_i h
      rw [bytesToNat_snoc,
        ih (n / 256) (Nat.div_lt_self (Nat.pos_of_ne_zero h) (by norm_num))]
      omega

theorem natToBytes_ne_nil {n : Nat} (h : n ≠ 0) : natToBytes n ≠ [] := by
  rw [natToBytes]; simp [h]

theorem readLen_lenBytes (n : Nat) (xs : List Nat) :
    readLen (lenBytes n ++ xs) = some (n, xs) := by
  by_cases hn : n < 128
  · simp [lenBytes, hn, readLen]
  · have hne : natToBytes n ≠ [] := natToBytes_ne_nil (by omega)
    have hl : (natToBytes n).length ≠ 0 := by simpa using hne
    have hcond : ¬(128 + (natToBytes n).length < 128) := by omega
    have hk : 128 + (natToBytes n).length - 128 = (natToBytes n).length := by omega
    have hlen : ¬((natToBytes n ++ xs).length < (natToBytes n).length) := by
      simp [List.length_append]
    simp [lenBytes, hn, List.cons_append, readLen, hcond, hk, hl,
      hlen, List.take_left, List.drop_left, bytesToNat_natToBytes]

theorem readTLV_tlv (t : Nat) (c extra : List Nat) :
    readTLV (tlv t c ++ extra) = some (t, c, extra) := by
  have hlen : ¬((c ++ extra).length < c.length) := by simp [List.length_append]
  simp [tlv, List.cons_append, List.append_assoc, readTLV, readLen_lenBytes,
    hlen, List.take_left, List.drop_left]

theorem readTLV_tlv_nil (t : Nat) (c : List Nat) :
    readTLV (tlv t c) = some (t, c, []) := by
  rw [← List.append_nil (tlv t c), readTLV_tlv]

theorem berDecodeSPKI_roundtrip (a : AlgorithmIdentifier) (bits : List Nat) :
    berDecodeSPKI (derEncodeSPKI a bits) = .ok (a, bits) := by
  simp [berDecodeSPKI, derEncodeSPKI, encAlgId, readTLV_tlv_nil, readTLV_tlv]

theorem berDecodeSPKI_trailing (a : AlgorithmIdentifier) (bits junk : List Nat)
    (hj : junk ≠ []) :
    berDecodeSPKI (tlv 0x30 (encAlgId a ++ tlv 0x03 (0 :: bits) ++ junk)) =
      .error ⟨.Decoding, "BER: Packet is larger than expected"⟩ := by
  simp [berDecodeSPKI, encAlgId, readTLV_tlv_nil, readTLV_tlv, List.append_assoc, hj]

theorem berDecodeSPKI_error_kind (input : List Nat) (e : Err)
    (h : berDecodeSPKI input = .error e) : e.kind = ErrKind.Decoding := by
  unfold berDecodeSPKI at h
  repeat' split at h
  all_goals first | (exact (Except.error.inj h) ▸ rfl) | (exact absurd h (by simp))

theorem mul_two_pow_lor (a b k : Nat) (hb : b < 2 ^ k) :
    a * 2 ^ k ||| b = a * 2 ^ k + b := by
  have hmod : (a * 2 ^ k ||| b) % 2 ^ k = b := by
    apply Nat.eq_of_testBit_eq
    intro i
    rw [Nat.testBit_mod_two_pow]
    by_cases hik : i < k
    · have h1 : (a * 2 ^ k).testBit i = false := by
        rw [← Nat.shiftLeft_eq, Nat.testBit_shiftLeft]
        simp [Nat.not_le.mpr hik]
      simp [Nat.testBit_lor, h1, hik]
    · have h2 : b.testBit i = false :=
        Nat.testBit_eq_false_of_lt
          (lt_of_lt_of_le hb (Nat.pow_le_pow_right (by norm_num) (Nat.le_of_not_lt hik)))
      simp [hik, h2]
  have hdiv : (a * 2 ^ k ||| b) / 2 ^ k = a := by
    apply Nat.eq_of_testBit_eq
    intro j
    rw [← Nat.shiftRight_eq_div_pow, Nat.testBit_shiftRight]
    have h2 : b.testBit (k + j) = false :=
      Nat.testBit_eq_false_of_lt
        (lt_of_lt_of_le hb (Nat.pow_le_pow_right (by norm_num) (Nat.le_add_right k j)))
    rw [Nat.testBit_lor, ← Nat.shiftLeft_eq, Nat.testBit_shiftLeft, h2]
    simp [Nat.le_add_right]
  calc a * 2 ^ k ||| b
      = 2 ^ k * ((a * 2 ^ k ||| b) / 2 ^ k) + (a * 2 ^ k ||| b) % 2 ^ k :=
        (Nat.div_add_mod _ (2 ^ k)).symm
    _ = a * 2 ^ k + b := by rw [hdiv, hmod]; ring

theorem foldl_shiftor_eq (l : List Nat) (acc : Nat)
    (hb : ∀ b ∈ l, b < 2 ^ 8)
    (hacc : (acc + 1) * 256 ^ l.length ≤ 2 ^ 64) :
    l.foldl (fun id b => ((id <<< 8) % 2 ^ 64) ||| (b % 2 ^ 8)) acc
      = l.foldl (fun acc b => 256 * acc + b) acc := by
  induction l generalizing acc with
  | nil => rfl
  | cons b t ih =>
    have hb0 : b < 2 ^ 8 := hb b (by simp)
    have hb256 : b < 256 := by simpa using hb0
    have hlen : ((b :: t).length : Nat) = t.length + 1 := by simp
    rw [hlen] at hacc
    have hlt : acc * 256 < 2 ^ 64 := by
      have h1 : (acc + 1) * 256 ≤ (acc + 1) * 256 ^ (t.length + 1) :=
        Nat.mul_le_mul_left _ (Nat.le_self_pow (by omega) 256)
      calc acc * 256 < (acc + 1) * 256 := by omega
        _ ≤ (acc + 1) * 256 ^ (t.length + 1) := h1
        _ ≤ 2 ^ 64 := hacc
    have hstep : ((acc <<< 8) % 2 ^ 64) ||| (b % 2 ^ 8) = 256 * acc + b := by
      rw [Nat.mod_eq_of_lt hb0, Nat.shiftLeft_eq,
        Nat.mod_eq_of_lt (by norm_num at hlt ⊢; omega),
        mul_two_pow_lor acc b 8 hb0]
      norm_num; ring
    simp only [List.foldl_cons, hstep]
    refine ih _ (fun x hx => hb x (List.mem_cons_of_mem _ hx)) ?_
    have h2 : 256 * acc + b + 1 ≤ (acc + 1) * 256 := by omega
    calc (256 * acc + b + 1) * 256 ^ t.length
        ≤ ((acc + 1) * 256) * 256 ^ t.length := Nat.mul_le_mul_right _ h2
      _ = (acc + 1) * 256 ^ (t.length + 1) := by ring
      _ ≤ 2 ^ 64 := hacc

theorem pemDecodeCheckLabel_error_kind (ext : Externals) (source : List Nat)
    (label : String) (e : Err)
    (hpem : ∀ e₂, ext.pemDecode source = .error e₂ → e₂.kind = ErrKind.Decoding)
    (h : pemDecodeCheckLabel ext source label = .error e) : e.kind = ErrKind.Decoding := by
  unfold pemDecodeCheckLabel at h
  repeat' split at h
  · rename_i e2 heq
    exact (Except.error.inj h) ▸ hpem e2 heq
  · exact absurd h (by simp)
  · exact (Except.error.inj h) ▸ rfl

theorem load_key_inner_error_kind (ext : Externals) (source : List Nat)
    (hpem : ∀ e, ext.pemDecode source = .error e → e.kind = ErrKind.Decoding)
    (hadapt : ∀ name k d a b e, ext.getPublicKey name = some k →
        k.x509_decoder = some d → d a b = .error e → e.kind = ErrKind.Decoding)
    (e : Err) (h : load_key_inner ext source = .error e) : e.kind = ErrKind.Decoding := by
  have hsrc : ∀ e₂, decode_spki_source ext source = .error e₂ → e₂.kind = ErrKind.Decoding := by
    intro e2 h2
    unfold decode_spki_source at h2
    split at h2
    · exact berDecodeSPKI_error_kind _ _ h2
    · split at h2
      · rename_i e3 heq
        exact (Except.error.inj h2) ▸ pemDecodeCheckLabel_error_kind ext source _ e3 hpem heq
      · exact berDecodeSPKI_error_kind _ _ h2
  unfold load_key_inner at h
  repeat' split at h
  · rename_i e1 heq
    exact (Except.error.inj h) ▸ hsrc e1 heq
  · exact (Except.error.inj h) ▸ rfl
  · exact (Except.error.inj h) ▸ rfl
  · exact (Except.error.inj h) ▸ rfl
  · exact (Except.error.inj h) ▸ rfl
  · rename_i x2 alg_id key_bits heq2 hemp hoid x1 key_obj hget x0 d hdec
    exact hadapt _ key_obj d _ _ e hget hdec h

theorem land_absorb_of_land (x l A : Nat) (h : x &&& A = x) :
    (x &&& l) &&& A = x &&& l := by
  rw [Nat.land_assoc, Nat.land_comm l A, ← Nat.land_assoc, h]

theorem natural_mask_subset (key : X509_PublicKey) :
    find_constraints key 0 &&&
      (KEY_ENCIPHERMENT ||| KEY_AGREEMENT ||| DIGITAL_SIGNATURE ||| NON_REPUDIATION) =
      find_constraints key 0 := by
  obtain ⟨n, enc, dc, b1, b2, b3, b4⟩ := key
  have h : find_constraints ⟨n, enc, dc, b1, b2, b3, b4⟩ 0 =
      find_constraints ⟨[], none, none, b1, b2, b3, b4⟩ 0 := rfl
  rw [h]
  cases b1 <;> cases b2 <;> cases b3 <;> cases b4 <;> decide

/-- C2: `find_constraints` starts from an empty bitmask and sets
KEY_ENCIPHERMENT exactly when the key supports Encrypting, KEY_AGREEMENT
exactly when it supports KeyAgreement, and both DIGITAL_SIGNATURE and
NON_REPUDIATION exactly when it supports Verifying with or without
recovery; a key with no recognized capability yields the empty mask (the
function is total and pure, so it has no failure path). -/
theorem find_constraints_capabilities (key : X509_PublicKey) :
    (find_constraints key 0 =
      (if key.isEncrypting then KEY_ENCIPHERMENT else 0) |||
      (if key.isKeyAgreement then KEY_AGREEMENT else 0) |||
      (if key.isVerifyingWoMR || key.isVerifyingWithMR then
          DIGITAL_SIGNATURE ||| NON_REPUDIATION
        else 0)) ∧
    (key.isEncrypting = false → key.isKeyAgreement = false →
      key.isVerifyingWoMR = false → key.isVerifyingWithMR = false →
      find_constraints key 0 = 0) := by
  obtain ⟨n, enc, dc, b1, b2, b3, b4⟩ := key
  have h : find_constraints ⟨n, enc, dc, b1, b2, b3, b4⟩ 0 =
      find_constraints ⟨[], none, none, b1, b2, b3, b4⟩ 0 := rfl
  dsimp only
  rw [h]
  cases b1 <;> cases b2 <;> cases b3 <;> cases b4 <;> exact ⟨by decide, by decide⟩

/-- Witness for C2 at a concrete capability-free key. -/
theorem find_constraints_capabilities_witness :
    find_constraints sampleOpaque 0 = 0 :=
  (find_constraints_capabilities sampleOpaque).2 rfl rfl rfl rfl

/-- C6: when `limits` is non-zero the result is the natural mask
intersected with `limits` (hence a subset of the bits of `limits`); when
`limits` is zero the natural mask is returned unmodified. -/
theorem find_constraints_limits (key : X509_PublicKey) (limits : Nat) :
    (limits ≠ 0 →
      find_constraints key limits = find_constraints key 0 &&& limits ∧
      find_constraints key limits &&& limits = find_constraints key limits) ∧
    (limits = 0 → find_constraints key limits = find_constraints key 0) := by
  constructor
  · intro h
    have h1 : find_constraints key limits = find_constraints key 0 &&& limits := by
      simp [find_constraints, h]
    have h2 : limits &&& limits = limits :=
      Nat.eq_of_testBit_eq (fun i => by simp [Nat.testBit_land])
    exact ⟨h1, by rw [h1, Nat.land_assoc, h2]⟩
  · intro h
    subst h
    rfl

/-- Witness for C6: a verifying-only key restricted to KEY_AGREEMENT. -/
theorem find_constraints_limits_witness :
    find_constraints sampleFresh KEY_AGREEMENT =
        find_constraints sampleFresh 0 &&& KEY_AGREEMENT ∧
      find_constraints sampleFresh KEY_AGREEMENT &&& KEY_AGREEMENT =
        find_constraints sampleFresh KEY_AGREEMENT :=
  (find_constraints_limits sampleFresh KEY_AGREEMENT).1 (by decide)

/-- C10: the resolver never sets a key-usage bit outside
{KEY_ENCIPHERMENT, KEY_AGREEMENT, DIGITAL_SIGNATURE, NON_REPUDIATION},
whatever the key's capabilities and the supplied limits. -/
theorem find_constraints_flag_subset (key : X509_PublicKey) (limits : Nat) :
    find_constraints key limits &&&
      (KEY_ENCIPHERMENT ||| KEY_AGREEMENT ||| DIGITAL_SIGNATURE ||| NON_REPUDIATION) =
      find_constraints key limits := by
  by_cases h : limits = 0
  · subst h
    exact natural_mask_subset key
  · have h1 : find_constraints key limits = find_constraints key 0 &&& limits := by
      simp [find_constraints, h]
    rw [h1]
    exact land_absorb_of_land _ _ _ (natural_mask_subset key)

/-- C1: provided the external collaborators signal their own failures as
decoding errors (as the spec requires of them), every failure of
`load_key` — malformed ASN.1, empty key bits, unresolved OID, missing
constructor, missing decode capability, adapter rejection — surfaces as
the one generic decoding failure with the fixed message, the specific
cause being discarded. -/
theorem load_key_uniform_failure (ext : Externals) (source : List Nat)
    (hpem : ∀ e, ext.pemDecode source = .error e → e.kind = ErrKind.Decoding)
    (hadapt : ∀ name k d a b e, ext.getPublicKey name = some k →
        k.x509_decoder = some d → d a b = .error e → e.kind = ErrKind.Decoding) :
    (∃ key, load_key ext source = .ok key) ∨
      load_key ext source = .error ⟨ErrKind.Decoding, "X.509 public key decoding failed"⟩ := by
  unfold load_key
  split
  · exact .inl ⟨_, rfl⟩
  · rename_i e heq
    have hk := load_key_inner_error_kind ext source hpem hadapt e heq
    right
    simp [hk]

/-- Witness for C1 at the sample world and an empty source. -/
theorem load_key_uniform_failure_witness :
    (∃ key, load_key sampleExt [] = .ok key) ∨
      load_key sampleExt [] = .error ⟨ErrKind.Decoding, "X.509 public key decoding failed"⟩ := by
  refine load_key_uniform_failure sampleExt [] (fun e h => ?_) ?_
  · exact (Except.error.inj h) ▸ rfl
  · intro name k d a b e hget hdec herr
    by_cases hn : name = "RSA"
    · subst hn
      rw [show sampleExt.getPublicKey "RSA" = some sampleFresh from rfl] at hget
      cases Option.some.inj hget
      rw [show sampleFresh.x509_decoder = some sampleAdapter from rfl] at hdec
      cases Option.some.inj hdec
      exact absurd herr (by simp [sampleAdapter])
    · rw [show sampleExt.getPublicKey name =
          (if name = "RSA" then some sampleFresh else none) from rfl, if_neg hn] at hget
      cases hget

/-- C9: `load_key` parses the source as raw binary ASN.1 exactly when the
BER heuristic accepts it and the PEM heuristic rejects it; in every other
case the source goes through the PEM path, which strips the framing and
requires the label "PUBLIC KEY". -/
theorem load_key_path_dispatch (ext : Externals) (source : List Nat) :
    (ext.maybeBER source = true ∧ ext.pemMatches source = false →
        decode_spki_source ext source = berDecodeSPKI source) ∧
    (ext.maybeBER source = false ∨ ext.pemMatches source = true →
        decode_spki_source ext source =
          match pemDecodeCheckLabel ext source "PUBLIC KEY" with
          | .error e => .error e
          | .ok ber => berDecodeSPKI ber) ∧
    (∀ lbl content, ext.pemDecode source = .ok (lbl, content) → lbl ≠ "PUBLIC KEY" →
        (ext.maybeBER source = false ∨ ext.pemMatches source = true) →
        load_key ext source = .error ⟨ErrKind.Decoding, "X.509 public key decoding failed"⟩) := by
  refine ⟨?_, ?_, ?_⟩
  · rintro ⟨h1, h2⟩
    simp [decode_spki_source, h1, h2]
  · intro h
    have hc : (ext.maybeBER source && !ext.pemMatches source) = false := by
      cases h with
      | inl h => simp [h]
      | inr h => simp [h]
    simp [decode_spki_source, hc]
  · intro lbl content hdec hlbl hcase
    have hc : (ext.maybeBER source && !ext.pemMatches source) = false := by
      cases hcase with
      | inl h => simp [h]
      | inr h => simp [h]
    unfold load_key load_key_inner decode_spki_source pemDecodeCheckLabel
    simp [hc, hdec, hlbl]

/-- Witness for C9: a wrongly-labelled PEM payload is rejected with the
fixed generic failure. -/
theorem load_key_path_dispatch_witness :
    load_key samplePemExt [] = .error ⟨ErrKind.Decoding, "X.509 public key decoding failed"⟩ :=
  (load_key_path_dispatch samplePemExt []).2.2 "CERTIFICATE" [48] rfl (by decide) (.inr rfl)

/-- C5: `load_key` fails with the generic decoding failure on an empty
BIT STRING, on an AlgorithmIdentifier whose OID the registry does not
resolve, and on trailing bytes after the expected SEQUENCE content. -/
theorem load_key_rejects (ext : Externals) (source : List Nat) :
    (∀ a, ext.maybeBER source = true → ext.pemMatches source = false →
        berDecodeSPKI source = .ok (a, []) →
        load_key ext source = .error ⟨ErrKind.Decoding, "X.509 public key decoding failed"⟩) ∧
    (∀ a bits, ext.maybeBER source = true → ext.pemMatches source = false →
        berDecodeSPKI source = .ok (a, bits) → ext.oidLookup a.oid = "" →
        load_key ext source = .error ⟨ErrKind.Decoding, "X.509 public key decoding failed"⟩) ∧
    (∀ a bits junk, junk ≠ [] →
        ext.maybeBER source = true → ext.pemMatches source = false →
        source = tlv 0x30 (encAlgId a ++ tlv 0x03 (0 :: bits) ++ junk) →
        load_key ext source = .error ⟨ErrKind.Decoding, "X.509 public key decoding failed"⟩) := by
  refine ⟨?_, ?_, ?_⟩
  · intro a h1 h2 hber
    unfold load_key load_key_inner decode_spki_source
    simp [h1, h2, hber]
  · intro a bits h1 h2 hber hoid
    unfold load_key load_key_inner decode_spki_source
    by_cases hemp : bits.isEmpty
    · simp [h1, h2, hber, hemp]
    · simp [h1, h2, hber, hemp, hoid]
  · intro a bits junk hj h1 h2 hsrc
    subst hsrc
    have hber := berDecodeSPKI_trailing a bits junk hj
    rw [List.append_assoc] at h1 h2 hber
    unfold load_key load_key_inner decode_spki_source
    rw [List.append_assoc]
    simp [h1, h2, hber]

/-- Witness for C5: the three rejections at concrete inputs. -/
theorem load_key_rejects_witness :
    load_key sampleExt (derEncodeSPKI sampleAlgId []) =
        .error ⟨ErrKind.Decoding, "X.509 public key decoding failed"⟩ ∧
    load_key sampleExt (derEncodeSPKI ⟨[9, 9], []⟩ [1]) =
        .error ⟨ErrKind.Decoding, "X.509 public key decoding failed"⟩ ∧
    load_key sampleExt (tlv 0x30 (encAlgId sampleAlgId ++ tlv 0x03 [0, 1] ++ [0])) =
        .error ⟨ErrKind.Decoding, "X.509 public key decoding failed"⟩ :=
  ⟨(load_key_rejects sampleExt _).1 sampleAlgId (by decide) rfl rfl,
   (load_key_rejects sampleExt _).2.1 ⟨[9, 9], []⟩ [1] (by decide) rfl rfl rfl,
   (load_key_rejects sampleExt _).2.2 sampleAlgId [1] [0] (by decide) (by decide) rfl rfl⟩

/-- C4: `encode` fails with an Encoding error when the key lacks the
X.509 encode adapter; otherwise it emits the DER form
`SEQUENCE { algorithm_identifier, BIT STRING(key_bits) }`, wrapped in PEM
framing under the fixed label "PUBLIC KEY" for PEM, unchanged for DER. -/
theorem encode_spec (ext : Externals) (key : X509_PublicKey) :
    (key.x509_encoder = none →
      ∀ encoding, encode ext key encoding =
        .error ⟨ErrKind.Encoding, "X509::encode: Key does not support encoding"⟩) ∧
    (∀ en, key.x509_encoder = some en →
      encode ext key .RAW_BER = .ok (derEncodeSPKI en.alg_id en.key_bits) ∧
      encode ext key .PEM =
        .ok (ext.pemEncode (derEncodeSPKI en.alg_id en.key_bits) "PUBLIC KEY") ∧
      derEncodeSPKI en.alg_id en.key_bits =
        tlv 0x30 (encAlgId en.alg_id ++ tlv 0x03 (0 :: en.key_bits))) := by
  constructor
  · intro h encoding
    simp [encode, h]
  · intro en he
    refine ⟨?_, ?_, rfl⟩ <;> simp [encode, he]

/-- Witness for C4: encode of the sample key, and the failure on a key
without the encode capability. -/
theorem encode_spec_witness :
    encode sampleExt sampleFresh .RAW_BER = .ok (derEncodeSPKI sampleAlgId sampleBits) ∧
    encode sampleExt sampleOpaque .PEM =
      .error ⟨ErrKind.Encoding, "X509::encode: Key does not support encoding"⟩ :=
  ⟨((encode_spec sampleExt sampleFresh).2 sampleEncoder rfl).1,
   (encode_spec sampleExt sampleOpaque).1 rfl .PEM⟩

/-- C3: for a key with the X.509 encode capability, `key_id` hashes the
algorithm name, the encoded parameters and the raw key bits as one
sequential stream, truncates the digest to its first 8 bytes and reads
them as a big-endian unsigned 64-bit integer; the result is a pure
function of those inputs, so it is deterministic and independent of host
endianness. -/
theorem key_id_big_endian (hash : List Nat → List Nat) (key : X509_PublicKey)
    (en : X509_Encoder) (he : key.x509_encoder = some en)
    (hlen : 8 ≤ (hash (key_id_input key en)).length)
    (hbytes : ∀ b ∈ hash (key_id_input key en), b < 2 ^ 8) :
    key_id hash key = .ok (beVal ((hash (key_id_input key en)).take 8)) ∧
    (∀ b0 b1 b2 b3 b4 b5 b6 b7 : Nat,
      beVal [b0, b1, b2, b3, b4, b5, b6, b7] =
        b0 * 256 ^ 7 + b1 * 256 ^ 6 + b2 * 256 ^ 5 + b3 * 256 ^ 4 +
          b4 * 256 ^ 3 + b5 * 256 ^ 2 + b6 * 256 + b7) := by
  have hte : ((hash (key_id_input key en)).take 8).length = 8 := by
    rw [List.length_take]
    omega
  constructor
  · have hfold := foldl_shiftor_eq ((hash (key_id_input key en)).take 8) 0
      (fun b hb => hbytes b (List.take_subset _ _ hb))
      (by rw [hte]; norm_num)
    simp [key_id, he, hte, beVal]
    simpa using hfold
  · intro b0 b1 b2 b3 b4 b5 b6 b7
    simp [beVal]
    ring

/-- Witness for C3: the id of the sample key under a fixed digest. -/
theorem key_id_big_endian_witness :
    key_id (fun _ => [1, 2, 3, 4, 5, 6, 7, 8, 9, 10]) sampleFresh = .ok 72623859790382856 := by
  have h := key_id_big_endian (fun _ => [1, 2, 3, 4, 5, 6, 7, 8, 9, 10]) sampleFresh
      sampleEncoder rfl (by decide) (by decide)
  rw [h.1]
  rfl

/-- C8: `key_id` fails with the fatal internal-error kind — never the
recoverable decoding or encoding kinds — in exactly two cases: a missing
X.509 encode adapter, and a digest that does not yield 8 usable bytes. -/
theorem key_id_failure_modes (hash : List Nat → List Nat) (key : X509_PublicKey) :
    (∀ e, key_id hash key = .error e →
        e.kind = ErrKind.Internal ∧ e.kind ≠ ErrKind.Decoding ∧ e.kind ≠ ErrKind.Encoding) ∧
    ((∃ e, key_id hash key = .error e) ↔
        key.x509_encoder = none ∨
        ∃ en, key.x509_encoder = some en ∧ (hash (key_id_input key en)).length < 8) := by
  constructor
  · intro e h
    unfold key_id at h
    repeat' split at h
    all_goals first
      | (exact (Except.error.inj h) ▸ ⟨rfl, by simp, by simp⟩)
      | (exact absurd h (by simp))
  · constructor
    · rintro ⟨e, h⟩
      unfold key_id at h
      split at h
      · rename_i heq
        exact .inl heq
      · rename_i en heq
        split at h
        · rename_i hcond
          rw [List.length_take] at hcond
          exact .inr ⟨en, heq, by omega⟩
        · exact absurd h (by simp)
    · rintro (hnone | ⟨en, hen, hlen⟩)
      · exact ⟨⟨ErrKind.Internal, "X509_PublicKey:key_id: No encoder found"⟩,
          by simp [key_id, hnone]⟩
      · refine ⟨⟨ErrKind.Internal, "X509_PublicKey::key_id: Incorrect output size"⟩, ?_⟩
        have hne : ((hash (key_id_input key en)).take 8).length ≠ 8 := by
          rw [List.length_take]
          omega
        simp [key_id, hen, hne]
        omega

/-- Witness for C8: the adapter-less key fails with the internal kind. -/
theorem key_id_failure_modes_witness :
    (⟨ErrKind.Internal, "X509_PublicKey:key_id: No encoder found"⟩ : Err).kind =
        ErrKind.Internal ∧
    (∃ e, key_id (fun _ => []) sampleOpaque = .error e) :=
  ⟨((key_id_failure_modes (fun _ => []) sampleOpaque).1 _ rfl).1,
   (key_id_failure_modes (fun _ => []) sampleOpaque).2.mpr (.inl rfl)⟩

/-- C7: for a key supporting both X.509 capabilities in a coherent world
(the heuristics route raw DER to the binary path, the registry resolves
the OID and supplies the constructor, and the decode adapter rebuilds the
algorithm name, parameters and key bits as the spec requires of it),
`copy_key` round-trips through the unframed DER form and the copy has the
same key id as the original. -/
theorem copy_key_preserves_key_id (ext : Externals) (key : X509_PublicKey)
    (en : X509_Encoder) (name : String) (k0 k2 : X509_PublicKey)
    (d : AlgorithmIdentifier → List Nat → Except Err X509_PublicKey)
    (en2 : X509_Encoder)
    (he : key.x509_encoder = some en)
    (hne : en.key_bits ≠ [])
    (hber : ext.maybeBER (derEncodeSPKI en.alg_id en.key_bits) = true)
    (hpem : ext.pemMatches (derEncodeSPKI en.alg_id en.key_bits) = false)
    (hname : ext.oidLookup en.alg_id.oid = name)
    (hname0 : name ≠ "")
    (hget : ext.getPublicKey name = some k0)
    (hdec : k0.x509_decoder = some d)
    (hd : d en.alg_id en.key_bits = .ok k2)
    (hfn : k2.algo_name = key.algo_name)
    (hfe : k2.x509_encoder = some en2)
    (hfp : en2.alg_id.parameters = en.alg_id.parameters)
    (hfb : en2.key_bits = en.key_bits) :
    copy_key ext key = .ok k2 ∧ ∀ hash, key_id hash k2 = key_id hash key := by
  constructor
  · have henc : encode ext key .RAW_BER = .ok (derEncodeSPKI en.alg_id en.key_bits) := by
      simp [encode, he]
    have hemp : en.key_bits.isEmpty = false := by
      cases hkb : en.key_bits with
      | nil => exact absurd hkb hne
      | cons x xs => rfl
    unfold copy_key
    rw [henc]
    unfold load_key load_key_inner decode_spki_source
    simp [hber, hpem, berDecodeSPKI_roundtrip, hemp, hname, hname0, hget, hdec, hd]
  · intro hash
    unfold key_id key_id_input
    rw [hfe, he]
    dsimp only
    rw [hfn, hfp, hfb]

/-- Witness for C7: copying the sample key through the sample world. -/
theorem copy_key_preserves_key_id_witness :
    copy_key sampleExt sampleFresh =
        .ok ⟨[82, 83, 65], some sampleEncoder, none, true, false, true, false⟩ ∧
    key_id (fun _ => [1, 2, 3, 4, 5, 6, 7, 8, 9, 10])
        (⟨[82, 83, 65], some sampleEncoder, none, true, false, true, false⟩ : X509_PublicKey) =
      key_id (fun _ => [1, 2, 3, 4, 5, 6, 7, 8, 9, 10]) sampleFresh := by
  have h := copy_key_preserves_key_id sampleExt sampleFresh sampleEncoder "RSA"
      sampleFresh ⟨[82, 83, 65], some sampleEncoder, none, true, false, true, false⟩
      sampleAdapter sampleEncoder rfl (by decide) (by decide) rfl rfl (by decide)
      rfl rfl rfl rfl rfl rfl rfl
  exact ⟨h.1, h.2 _⟩

end Botan
